import Mathlib

/-! # backend/server.js : contact form and job application endpoints

A shallow embedding of `src/backend/server.js`.

* Strings are Lean `String`s; character-level functions work on `List Char`.
* The two request handlers are functions from the request, the mail transport's
  behaviour and the file system's behaviour to the HTTP response and the ordered
  list of external actions the handler performed.
* Behaviour of the runtime and of the libraries the file calls (Node's
  `path.extname`, `String.prototype.replace`, multer's `fields` middleware, the
  framework's default error handler) is modelled in the definitions marked
  "Library model"; everything else follows the lines of `server.js` quoted in the
  doc comments.
* Diagnostic logging (`console.log`, `console.error`) is not modelled, except the
  warning emitted when deleting an upload fails.
-/

set_option autoImplicit false

namespace Server

/-! ## Text helpers -/

/-- Library model of an unanchored, flag-free regular expression that is a plain
alternation of literal words, such as `/jpeg|jpg|png|pdf/`: `test` succeeds when one
of the words occurs somewhere in the subject. `isSubstr w s` says that `w` occurs in `s`. -/
def isSubstr (w s : List Char) : Bool :=
  s.tails.any (fun t => w.isPrefixOf t)

/-- Library model of `RegExp.prototype.test` for an alternation of literal words. -/
def regexTest (alternatives : List String) (s : String) : Bool :=
  alternatives.any (fun w => isSubstr w.data s.data)

/-- Library model of `String.prototype.toLowerCase`, restricted to the ASCII letters.
Outside ASCII the JavaScript function maps no character to any of the letters of
`jpeg`, `jpg`, `png`, `pdf`, so the restriction does not change what `fileFilter` decides. -/
def toLowerCase (s : String) : String :=
  ⟨s.data.map Char.toLower⟩

/-- The loop state of Node's POSIX `path.extname`; `-1` is the "not seen yet" marker. -/
structure ExtState where
  startDot : Int
  startPart : Int
  endIdx : Int
  matchedSlash : Bool
  preDotState : Int
deriving DecidableEq, Repr

/-- Library model of the scanning loop of Node's POSIX `path.extname`:
`for (i = path.length - 1; i >= 0; --i)`. The first argument is `i + 1`. -/
def extnameLoop (path : List Char) : Nat → ExtState → ExtState
  | 0, st => st
  | i + 1, st =>
    let code := path.getD i ' '
    if code = '/' then
      -- a separator that is not part of the trailing run of separators ends the scan
      if !st.matchedSlash then { st with startPart := (i : Int) + 1 }
      else extnameLoop path i st
    else
      let st1 : ExtState :=
        if st.endIdx = -1 then { st with matchedSlash := false, endIdx := (i : Int) + 1 } else st
      let st2 : ExtState :=
        if code = '.' then
          if st1.startDot = -1 then { st1 with startDot := (i : Int) }
          else if st1.preDotState ≠ 1 then { st1 with preDotState := 1 }
          else st1
        else if st1.startDot ≠ -1 then { st1 with preDotState := -1 }
        else st1
      extnameLoop path i st2

/-- Library model of Node's POSIX `path.extname`: the text from the last dot of the
last path component to its end, or the empty string when that component has no dot,
starts with its only dot, or is `..`. -/
def extname (path : String) : String :=
  let st := extnameLoop path.data path.data.length
    { startDot := -1, startPart := 0, endIdx := -1, matchedSlash := true, preDotState := 0 }
  if st.startDot = -1 ∨ st.endIdx = -1 ∨ st.preDotState = 0 ∨
      (st.preDotState = 1 ∧ st.startDot = st.endIdx - 1 ∧ st.startDot = st.startPart + 1) then
    ""
  else
    ⟨(path.data.drop st.startDot.toNat).take (st.endIdx.toNat - st.startDot.toNat)⟩

/-! ## File intake: `fileFilter` (server.js 75-79) -/

/-- A thrown JavaScript error: its message and, when present, its `status` property. -/
structure JsError where
  message : String
  status : Option Nat := none
deriving DecidableEq, Repr

/-- The words of `const allowed = /jpeg|jpg|png|pdf/`. -/
def allowed : List String := ["jpeg", "jpg", "png", "pdf"]

/-- The four extensions the rejection message of `fileFilter` names. -/
def namedExtensions : List String := [".pdf", ".jpg", ".jpeg", ".png"]

/-- `fileFilter` (server.js 75-79):
`ext = path.extname(file.originalname).toLowerCase();`
`allowed.test(ext) ? cb(null, true) : cb(new Error("Only .pdf, .jpg, .jpeg, .png allowed"))`.
The callback's arguments are the result: `.ok true` for `cb(null, true)`. -/
def fileFilter (originalname : String) : Except JsError Bool :=
  let ext := toLowerCase (extname originalname)
  if regexTest allowed ext then .ok true
  else .error { message := "Only .pdf, .jpg, .jpeg, .png allowed" }

/-! ## File intake: stored file names (server.js 63-73) -/

/-- The characters matched by `\s` in a JavaScript regular expression. -/
def isWhiteSpace (c : Char) : Bool :=
  c.toNat = 0x20 || c.toNat = 0x09 || c.toNat = 0x0A || c.toNat = 0x0B || c.toNat = 0x0C ||
  c.toNat = 0x0D || c.toNat = 0xA0 || c.toNat = 0x1680 ||
  (0x2000 ≤ c.toNat && c.toNat ≤ 0x200A) ||
  c.toNat = 0x2028 || c.toNat = 0x2029 || c.toNat = 0x202F || c.toNat = 0x205F ||
  c.toNat = 0x3000 || c.toNat = 0xFEFF

/-- Library model of `s.replace(/\s+/g, "_")` on characters: every maximal run of
white space becomes one underscore. The flag says whether the previous character
belonged to a run that has already been replaced. -/
def replaceRuns : Bool → List Char → List Char
  | _, [] => []
  | inRun, c :: cs =>
    if isWhiteSpace c then
      if inRun then replaceRuns true cs else '_' :: replaceRuns true cs
    else c :: replaceRuns false cs

/-- `file.originalname.replace(/\s+/g, "_")` (server.js 70). -/
def safeName (originalname : String) : String :=
  ⟨replaceRuns false originalname.data⟩

/-- `storage.filename` (server.js 68-72). `now` is the value of `Date.now()` and `rnd`
the value of `Math.round(Math.random() * 1e9)` at the call, an integer between 0 and
10^9; both are printed in decimal by the string concatenation. -/
def storageFilename (now rnd : Nat) (originalname : String) : String :=
  let unique := now.repr ++ "-" ++ rnd.repr
  unique ++ "-" ++ safeName originalname

/-! ## File intake: the multer middleware (server.js 81-96) -/

/-- One file part of the multipart body, with the clock reading and the random draw
the storage engine gets when it names the file. -/
structure FilePart where
  fieldname : String
  originalname : String
  size : Nat
  now : Nat
  rnd : Nat
deriving DecidableEq, Repr

/-- A stored upload as the handler sees it in `req.files`. -/
structure MulterFile where
  fieldname : String
  originalname : String
  path : String
  size : Nat
deriving DecidableEq, Repr

/-- An entry of the `fields` array. -/
structure Field where
  name : String
  maxCount : Nat
deriving DecidableEq, Repr

/-- `const fields = [...]` (server.js 87-96). -/
def fields : List Field :=
  [ { name := "passport_front", maxCount := 1 },
    { name := "passport_back", maxCount := 1 },
    { name := "photo", maxCount := 1 },
    { name := "education", maxCount := 1 },
    { name := "experience", maxCount := 1 },
    { name := "aadhaar", maxCount := 1 },
    { name := "pan", maxCount := 1 },
    { name := "birth_certificate", maxCount := 1 } ]

/-- `limits: { fileSize: 6 * 1024 * 1024 }` (server.js 84). -/
def fileSize : Nat := 6 * 1024 * 1024

/-- The object `req.files`: its keys in insertion order, each with the files of that
field. None of the registered names is an array index, so `Object.keys` lists the
keys in insertion order. -/
abbrev ReqFiles := List (String × List MulterFile)

/-- Library model of multer's file appender for `upload.fields`: a file is pushed onto
the array of its field; a field seen for the first time becomes a new key of `req.files`. -/
def appendFile (files : ReqFiles) (f : MulterFile) : ReqFiles :=
  if files.any (fun kv => kv.1 == f.fieldname) then
    files.map (fun kv => if kv.1 == f.fieldname then (kv.1, kv.2 ++ [f]) else kv)
  else files ++ [(f.fieldname, [f])]

/-- Library model of multer's disk storage: the file is written to
`destination/filename`, where `destination` is `uploadDir` (server.js 63, 67) and
`filename` is computed by `storageFilename`. -/
def storeFile (uploadDir : String) (p : FilePart) : MulterFile :=
  { fieldname := p.fieldname
    originalname := p.originalname
    path := uploadDir ++ "/" ++ storageFilename p.now p.rnd p.originalname
    size := p.size }

/-- The state of one run of the multer middleware: how many more files each field may
still receive, and `req.files` so far. -/
structure IntakeState where
  filesLeft : List (String × Nat)
  files : ReqFiles
deriving DecidableEq, Repr

/-- `filesLeft[fieldname] || 0`. -/
def filesLeftOf (filesLeft : List (String × Nat)) (fieldname : String) : Nat :=
  (filesLeft.lookup fieldname).getD 0

/-- `filesLeft[fieldname] -= 1`. -/
def useField (filesLeft : List (String × Nat)) (fieldname : String) : List (String × Nat) :=
  filesLeft.map (fun kv => if kv.1 == fieldname then (kv.1, kv.2 - 1) else kv)

/-- Library model of what multer does with one file part under
`multer({ storage, fileFilter, limits }).fields(fields)`: a part without a file name
is skipped; a part for a field that may take no more files is refused; then
`fileFilter` decides; a file longer than `limits.fileSize` bytes is refused; an
accepted file is stored and appended to `req.files`. A refusal is the error multer
hands to `next`. -/
def intakeStep (uploadDir : String) (st : IntakeState) (p : FilePart) :
    Except JsError IntakeState :=
  if p.originalname = "" then .ok st
  else if filesLeftOf st.filesLeft p.fieldname = 0 then
    .error { message := "Unexpected field" }
  else
    let left := useField st.filesLeft p.fieldname
    match fileFilter p.originalname with
    | .error e => .error e
    | .ok false => .ok { st with filesLeft := left }
    | .ok true =>
      if p.size > fileSize then .error { message := "File too large" }
      else .ok { filesLeft := left, files := appendFile st.files (storeFile uploadDir p) }

/-- Library model of the middleware `upload.fields(fields)` on the file parts of a
request, in the order they arrive: the resulting `req.files`, or the error passed to `next`. -/
def uploadFields (uploadDir : String) (parts : List FilePart) : Except JsError ReqFiles :=
  (parts.foldlM (intakeStep uploadDir)
    { filesLeft := fields.map (fun f => (f.name, f.maxCount)), files := [] }).map
    (fun st => st.files)

/-! ## Responses, mail transport, external actions -/

/-- A response body: `res.json({ message })`, or the HTML error document written by
the framework's default error handler. -/
inductive ResBody where
  | json (message : String)
  | htmlErrorPage
deriving DecidableEq, Repr

/-- An HTTP response: status code and body. -/
structure Response where
  status : Nat
  body : ResBody
deriving DecidableEq, Repr

/-- An entry of the `attachments` array (server.js 111). -/
structure Attachment where
  filename : String
  path : String
deriving DecidableEq, Repr

/-- The argument of `transporter.sendMail`. A property that is not set is `none`;
`from_` and `to_` are the properties `from` and `to`. -/
structure MailOptions where
  from_ : Option String
  replyTo : Option String
  to_ : Option String
  subject : String
  text : Option String := none
  html : Option String := none
  attachments : Option (List Attachment) := none
deriving DecidableEq, Repr

/-- The behaviour of the mail transport during one request: whether
`transporter.verify()` throws, and whether `transporter.sendMail(m)` throws. -/
structure Transport where
  verify : Except JsError Unit
  sendMail : MailOptions → Except JsError Unit

/-- The external actions a handler performs, in program order. -/
inductive Effect where
  | verify
  | sendMail (m : MailOptions)
  | unlink (path : String)
deriving DecidableEq, Repr

/-- What one run of a handler did: the response, the external actions in order, and
the paths for which the "Failed to delete upload" warning is logged. -/
structure Outcome where
  response : Response
  effects : List Effect
  warnings : List String := []
deriving DecidableEq, Repr

/-- The `!x` test on a body field. Body fields are strings, as in the form data the
endpoints are written for: a field is `none` when `req.body` has no such property,
and it is falsy when it is absent or the empty string. -/
def falsy (x : Option String) : Bool :=
  match x with
  | none => true
  | some s => s == ""

/-- The text a body field contributes to a template literal. -/
def tpl (x : Option String) : String :=
  match x with
  | none => "undefined"
  | some s => s

/-! ## Contact form endpoint (server.js 26-60) -/

/-- The fields read from `req.body` by `/send-email` (server.js 28), where `req.body`
is the object the JSON body parser produced. -/
structure ContactBody where
  name : Option String
  email : Option String
  message : Option String
deriving DecidableEq, Repr

/-- The message built at server.js 46-52; `emailUser` is `process.env.EMAIL_USER`. -/
def contactMail (emailUser : Option String) (b : ContactBody) : MailOptions :=
  { from_ := emailUser
    replyTo := b.email
    to_ := emailUser
    subject := "New Contact Form Submission from " ++ tpl b.name
    text := some ("Name: " ++ tpl b.name ++ "\nEmail: " ++ tpl b.email ++
      "\nMessage: " ++ tpl b.message) }

/-- The handler of `POST /send-email` (server.js 26-60). An error thrown by
`transporter.verify()` or `transporter.sendMail(...)` is caught by the `catch` block,
which answers 500; creating the transport object contacts nobody and is not recorded. -/
def sendEmail (emailUser : Option String) (t : Transport) (b : ContactBody) : Outcome :=
  if falsy b.name || falsy b.email || falsy b.message then
    { response := { status := 400, body := .json "Missing required fields" }, effects := [] }
  else
    match t.verify with
    | .error _ =>
      { response := { status := 500, body := .json "Failed to send email" },
        effects := [.verify] }
    | .ok _ =>
      let m := contactMail emailUser b
      match t.sendMail m with
      | .error _ =>
        { response := { status := 500, body := .json "Failed to send email" },
          effects := [.verify, .sendMail m] }
      | .ok _ =>
        { response := { status := 200, body := .json "Email sent successfully" },
          effects := [.verify, .sendMail m] }

/-! ## Job application endpoint (server.js 98-156) -/

/-- The fields read from `req.body` by `/apply-job` (server.js 100), where `req.body`
is the object holding the text fields of the multipart form. -/
structure ApplyBody where
  name : Option String
  email : Option String
  phone : Option String
  jobTitle : Option String
deriving DecidableEq, Repr

/-- The attachment assembly of server.js 107-114: for every key of `req.files` in
`Object.keys` order, every file of that key in array order. -/
def attachmentsOf (files : Option ReqFiles) : List Attachment :=
  match files with
  | none => []
  | some fs =>
    fs.foldl (fun acc kv =>
      kv.2.foldl (fun acc file => acc ++ [{ filename := file.originalname, path := file.path }])
        acc) []

/-- The message built at server.js 127-141. -/
def applicationMail (emailUser : Option String) (b : ApplyBody)
    (attachments : List Attachment) : MailOptions :=
  { from_ := emailUser
    replyTo := b.email
    to_ := emailUser
    subject := "Job Application: " ++ tpl b.jobTitle ++ " — " ++ tpl b.name
    html := some ("\n        <h3>New Job Application</h3>\n        <p><strong>Job:</strong> " ++
      tpl b.jobTitle ++ "</p>\n        <p><strong>Name:</strong> " ++ tpl b.name ++
      "</p>\n        <p><strong>Email:</strong> " ++ tpl b.email ++
      "</p>\n        <p><strong>Phone:</strong> " ++ tpl b.phone ++
      "</p>\n        <p><strong>Note:</strong> All required documents attached.</p>\n      ")
    attachments := some attachments }

/-- The handler of `POST /apply-job` (server.js 98-156), run after the upload
middleware has filled `req.body` and `req.files`. `unlinkFails p` says whether
`fs.unlink` reports an error for path `p`. -/
def applyJob (emailUser : Option String) (t : Transport) (unlinkFails : String → Bool)
    (b : ApplyBody) (files : Option ReqFiles) : Outcome :=
  if falsy b.name || falsy b.email || falsy b.phone || falsy b.jobTitle then
    { response := { status := 400, body := .json "Missing required fields" }, effects := [] }
  else
    let attachments := attachmentsOf files
    match t.verify with
    | .error _ =>
      { response := { status := 500, body := .json "Failed to process application" },
        effects := [.verify] }
    | .ok _ =>
      let m := applicationMail emailUser b attachments
      match t.sendMail m with
      | .error _ =>
        { response := { status := 500, body := .json "Failed to process application" },
          effects := [.verify, .sendMail m] }
      | .ok _ =>
        { response := { status := 200, body := .json "Application sent successfully" },
          effects := [.verify, .sendMail m] ++ attachments.map (fun att => .unlink att.path),
          warnings := (attachments.filter (fun att => unlinkFails att.path)).map
            (fun att => att.path) }

/-- Library model of the framework's default error handler, which answers when a
middleware passes an error to `next` and the application has registered no error
handler (server.js registers none): the status is the error's `status` when that is
a 4xx or 5xx code and 500 otherwise, and the body is an HTML document. -/
def defaultErrorHandler (err : JsError) : Response :=
  let status :=
    match err.status with
    | some s => if 400 ≤ s ∧ s < 600 then s else 500
    | none => 500
  { status := status, body := .htmlErrorPage }

/-- A `POST /apply-job` request: the scalar fields and the file parts in arrival order. -/
structure ApplyRequest where
  body : ApplyBody
  parts : List FilePart
deriving DecidableEq, Repr

/-- The route `app.post("/apply-job", upload.fields(fields), handler)` (server.js 98):
the upload middleware runs first; when it passes an error on, the handler is skipped
and the default error handler answers. -/
def applyJobRoute (uploadDir : String) (emailUser : Option String) (t : Transport)
    (unlinkFails : String → Bool) (req : ApplyRequest) : Outcome :=
  match uploadFields uploadDir req.parts with
  | .error e => { response := defaultErrorHandler e, effects := [] }
  | .ok files => applyJob emailUser t unlinkFails req.body (some files)

/-- Library model of the effect of the handler's `fs.unlink` calls on the upload
directory: a stored path is gone afterwards when the handler asked to delete it and
the deletion did not fail. -/
def remainingFiles (unlinkFails : String → Bool) (o : Outcome) (stored : List String) :
    List String :=
  stored.filter (fun p => !(o.effects.contains (.unlink p) && !unlinkFails p))

/-- A body field that fails the handlers' presence test: absent, or the empty string. -/
def isMissing (x : Option String) : Prop :=
  x = none ∨ x = some ""

instance (x : Option String) : Decidable (isMissing x) := by
  unfold isMissing; infer_instance

/-- The paths the handler asked `fs.unlink` to delete, in order. -/
def unlinkedPaths (effects : List Effect) : List String :=
  effects.filterMap (fun e => match e with
    | .unlink p => some p
    | _ => none)

/-- The messages handed to `transporter.sendMail`, in order. -/
def sentMails (effects : List Effect) : List MailOptions :=
  effects.filterMap (fun e => match e with
    | .sendMail m => some m
    | _ => none)

/-- A call that ended by throwing an error. -/
def throws {α : Type} (r : Except JsError α) : Bool :=
  match r with
  | .error _ => true
  | .ok _ => false

/-- The mail transport throws for message `m`: at verification, or at sending. -/
def throwsFor (t : Transport) (m : MailOptions) : Prop :=
  throws t.verify = true ∨ throws (t.sendMail m) = true

instance (t : Transport) (m : MailOptions) : Decidable (throwsFor t m) := by
  unfold throwsFor; infer_instance

/-- A transport whose verification and sending both succeed. -/
def workingTransport : Transport :=
  { verify := .ok (), sendMail := fun _ => .ok () }

/-- A transport whose verification throws `e`. -/
def unreachableTransport (e : JsError) : Transport :=
  { verify := .error e, sendMail := fun _ => .ok () }

/-- A transport that verifies but throws `e` when sending. -/
def rejectingTransport (e : JsError) : Transport :=
  { verify := .ok (), sendMail := fun _ => .error e }

/-- All files of `req.files`, key by key in `Object.keys` order. -/
def storedFiles (files : ReqFiles) : List MulterFile :=
  files.flatMap (fun kv => kv.2)

/-- The attachment list as the specification words it: for every registered field,
in the order of `fields`, the files `req.files` holds for that field; a field
without a file contributes nothing. -/
def attachmentsInRegisteredOrder (files : ReqFiles) : List Attachment :=
  fields.flatMap (fun f =>
    ((files.lookup f.name).getD []).map
      (fun file => { filename := file.originalname, path := file.path }))

/-- The file parts of a request that carry a file (a part without a file name is
skipped by the upload middleware). -/
def uploadedParts (parts : List FilePart) : List FilePart :=
  parts.filter (fun p => p.originalname ≠ "")

/-- What holds of the upload middleware's state throughout a run: no field may
take more than one further file, and a field that may still take one has no key
in `req.files` yet. -/
def IntakeInv (st : IntakeState) : Prop :=
  ∀ k : String, filesLeftOf st.filesLeft k ≤ 1 ∧
    (filesLeftOf st.filesLeft k = 1 → st.files.any (fun kv => kv.1 == k) = false)

/-- A file part that the upload middleware refuses: it carries a file whose name
`fileFilter` rejects, or whose size exceeds `limits.fileSize`. -/
def refusedPart (p : FilePart) : Prop :=
  p.originalname ≠ "" ∧ (throws (fileFilter p.originalname) = true ∨ p.size > fileSize)

instance (p : FilePart) : Decidable (refusedPart p) := by
  unfold refusedPart; infer_instance

/-- A 10-byte PNG sent in the `photo` field. -/
def photoPart : FilePart :=
  { fieldname := "photo", originalname := "my face.png", size := 10,
    now := 1730000000000, rnd := 42 }

/-- A PDF sent in the `passport_front` field. -/
def passportPart : FilePart :=
  { fieldname := "passport_front", originalname := "passport.pdf", size := 2048,
    now := 1730000000001, rnd := 977 }

/-- An executable sent in the `education` field. -/
def exePart : FilePart :=
  { fieldname := "education", originalname := "diploma.exe", size := 2048,
    now := 1730000000002, rnd := 5 }

/-- A PDF of one byte more than 6 MiB sent in the `experience` field. -/
def oversizedPart : FilePart :=
  { fieldname := "experience", originalname := "letters.pdf", size := 6 * 1024 * 1024 + 1,
    now := 1730000000003, rnd := 6 }

/-- A complete set of scalar fields. -/
def annBody : ApplyBody :=
  { name := some "Ann", email := some "a@x.com", phone := some "555", jobTitle := some "Welder" }

/-- The number a string of decimal digits denotes. -/
def digitsValue (cs : List Char) : Nat :=
  cs.foldl (fun acc c => acc * 10 + (c.toNat - 48)) 0

/-- The upload directory used in the examples. -/
def exampleDir : String := "/srv/uploads"

/-- The `req.files` the upload middleware builds when `photoPart` arrives before
`passportPart`. -/
def arrivedFiles : ReqFiles :=
  [("photo", [storeFile exampleDir photoPart]),
   ("passport_front", [storeFile exampleDir passportPart])]

/-! ## Basic facts -/

theorem falsy_iff (x : Option String) : falsy x = true ↔ isMissing x := by
  cases x <;> simp [falsy, isMissing]

theorem falsy_eq_false_iff (x : Option String) : falsy x = false ↔ ¬ isMissing x := by
  rw [← falsy_iff]; simp

theorem unlinkedPaths_map_unlink (atts : List Attachment) :
    unlinkedPaths (atts.map (fun att => Effect.unlink att.path)) = atts.map (fun att => att.path) := by
  induction atts with
  | nil => rfl
  | cons a as ih =>
    simp only [unlinkedPaths, List.map_cons, List.filterMap_cons] at ih ⊢
    rw [ih]

/-! ## Contact form endpoint -/

/-- C8: every `/send-email` request in which one of name, email, message is absent
or empty is answered with status 400 and body `{"message":"Missing required fields"}`,
and the handler performs no external action: the mail transport is neither verified
nor asked to send. -/
theorem sendEmail_missing_fields (emailUser : Option String) (t : Transport) (b : ContactBody)
    (h : isMissing b.name ∨ isMissing b.email ∨ isMissing b.message) :
    sendEmail emailUser t b =
      { response := { status := 400, body := .json "Missing required fields" },
        effects := [], warnings := [] } := by
  have hf : (falsy b.name || falsy b.email || falsy b.message) = true := by
    simp only [Bool.or_eq_true, falsy_iff]
    tauto
  simp [sendEmail, hf]

/-- A contact request without an email address, sent to a working transport. -/
theorem sendEmail_missing_fields_witness :
    (isMissing (some "Ann") ∨ isMissing (none : Option String) ∨ isMissing (some "hi")) ∧
    sendEmail (some "office@example.com") workingTransport
        { name := some "Ann", email := none, message := some "hi" } =
      { response := { status := 400, body := .json "Missing required fields" },
        effects := [], warnings := [] } :=
  ⟨by decide,
   sendEmail_missing_fields (some "office@example.com") workingTransport
     { name := some "Ann", email := none, message := some "hi" } (by decide)⟩

/-- C9: a `/send-email` request with non-empty name, email and message, for which
verification and sending succeed, makes the handler verify the transport and send
exactly one message; that message has `from` and `to` equal to the service mailbox,
`replyTo` equal to the submitted email, subject "New Contact Form Submission from "
followed by the name, and a plain-text body (no HTML, no attachments) that contains
name, email and message; the response is 200 `{"message":"Email sent successfully"}`. -/
theorem sendEmail_success (emailUser : Option String) (t : Transport)
    (name email message : String)
    (hn : name ≠ "") (he : email ≠ "") (hm : message ≠ "")
    (hv : t.verify = .ok ())
    (hs : t.sendMail (contactMail emailUser
      { name := some name, email := some email, message := some message }) = .ok ()) :
    let o := sendEmail emailUser t
      { name := some name, email := some email, message := some message }
    let text := "Name: " ++ name ++ "\nEmail: " ++ email ++ "\nMessage: " ++ message
    o.response = { status := 200, body := .json "Email sent successfully" } ∧
    o.effects = [.verify, .sendMail
      { from_ := emailUser, replyTo := some email, to_ := emailUser,
        subject := "New Contact Form Submission from " ++ name,
        text := some text, html := none, attachments := none }] ∧
    sentMails o.effects = [contactMail emailUser
      { name := some name, email := some email, message := some message }] ∧
    name.data <:+: text.data ∧ email.data <:+: text.data ∧ message.data <:+: text.data := by
  have hf : (falsy (some name) || falsy (some email) || falsy (some message)) = false := by
    simp [falsy, hn, he, hm]
  have ho : sendEmail emailUser t
      { name := some name, email := some email, message := some message } =
      { response := { status := 200, body := .json "Email sent successfully" },
        effects := [.verify, .sendMail (contactMail emailUser
          { name := some name, email := some email, message := some message })],
        warnings := [] } := by
    simp [sendEmail, hf, hv, hs]
  intro o text
  have ho2 : o = _ := ho
  refine ⟨?_, ?_, ?_, ?_, ?_, ?_⟩
  · rw [ho2]
  · rw [ho2]; rfl
  · rw [ho2]; rfl
  · exact ⟨"Name: ".data, ("\nEmail: " ++ email ++ "\nMessage: " ++ message).data, by
      simp [text, String.data_append, List.append_assoc]⟩
  · exact ⟨("Name: " ++ name ++ "\nEmail: ").data, ("\nMessage: " ++ message).data, by
      simp [text, String.data_append, List.append_assoc]⟩
  · exact ⟨("Name: " ++ name ++ "\nEmail: " ++ email ++ "\nMessage: ").data, [], by
      simp [text, String.data_append, List.append_assoc]⟩

/-- The contact request of Ann with a working transport: one message, subject ending in her name. -/
theorem sendEmail_success_witness :
    ("Ann" ≠ "" ∧ "a@x.com" ≠ "" ∧ "hi" ≠ "") ∧
    (sendEmail (some "office@example.com") workingTransport
      { name := some "Ann", email := some "a@x.com", message := some "hi" }).response =
      { status := 200, body := .json "Email sent successfully" } ∧
    sentMails (sendEmail (some "office@example.com") workingTransport
      { name := some "Ann", email := some "a@x.com", message := some "hi" }).effects =
      [{ from_ := some "office@example.com", replyTo := some "a@x.com",
         to_ := some "office@example.com",
         subject := "New Contact Form Submission from Ann",
         text := some "Name: Ann\nEmail: a@x.com\nMessage: hi" }] :=
  have h := sendEmail_success (some "office@example.com") workingTransport "Ann" "a@x.com" "hi"
    (by decide) (by decide) (by decide) rfl rfl
  ⟨by decide, h.1, h.2.2.1⟩

/-- C10: when a `/send-email` request passes validation and the mail transport throws,
at verification or at sending, the response is 500 `{"message":"Failed to send email"}`;
any other throwing transport, whatever error it throws, gets the very same response;
and when verification throws the handler's only external action is the verification,
so sending is never attempted. -/
theorem sendEmail_transport_failure (emailUser : Option String) (t : Transport)
    (b : ContactBody)
    (hb : ¬ isMissing b.name ∧ ¬ isMissing b.email ∧ ¬ isMissing b.message)
    (ht : throwsFor t (contactMail emailUser b)) :
    (sendEmail emailUser t b).response =
      { status := 500, body := .json "Failed to send email" } ∧
    (∀ t2 : Transport, throwsFor t2 (contactMail emailUser b) →
      (sendEmail emailUser t2 b).response = (sendEmail emailUser t b).response) ∧
    (throws t.verify = true →
      (sendEmail emailUser t b).effects = [.verify] ∧
      sentMails (sendEmail emailUser t b).effects = []) := by
  have hf : (falsy b.name || falsy b.email || falsy b.message) = false := by
    simp only [Bool.or_eq_false_iff, falsy_eq_false_iff]
    exact ⟨⟨hb.1, hb.2.1⟩, hb.2.2⟩
  have key : ∀ t2 : Transport, throwsFor t2 (contactMail emailUser b) →
      (sendEmail emailUser t2 b).response =
        { status := 500, body := .json "Failed to send email" } := by
    intro t2 h2
    unfold sendEmail
    rw [hf]
    rcases hv : t2.verify with e | u
    · simp
    · rcases hs : t2.sendMail (contactMail emailUser b) with e | u2
      · simp [hs]
      · rcases h2 with h | h
        · simp [throws, hv] at h
        · simp [throws, hs] at h
  refine ⟨key t ht, fun t2 h2 => by rw [key t2 h2, key t ht], ?_⟩
  intro hthrow
  unfold sendEmail
  rw [hf]
  rcases hv : t.verify with e | u
  · simp [sentMails]
  · simp [throws, hv] at hthrow

/-- Two contact requests of Ann, one failing at verification and one at sending with a different error: the same response. -/
theorem sendEmail_transport_failure_witness :
    (¬ isMissing (some "Ann") ∧ ¬ isMissing (some "a@x.com") ∧ ¬ isMissing (some "hi")) ∧
    (sendEmail (some "office@example.com")
        (unreachableTransport { message := "Invalid login: 535 bad credentials" })
        { name := some "Ann", email := some "a@x.com", message := some "hi" }).response =
      { status := 500, body := .json "Failed to send email" } ∧
    (sendEmail (some "office@example.com")
        (rejectingTransport { message := "connect ETIMEDOUT" })
        { name := some "Ann", email := some "a@x.com", message := some "hi" }).response =
      (sendEmail (some "office@example.com")
        (unreachableTransport { message := "Invalid login: 535 bad credentials" })
        { name := some "Ann", email := some "a@x.com", message := some "hi" }).response :=
  have h := sendEmail_transport_failure (some "office@example.com")
    (unreachableTransport { message := "Invalid login: 535 bad credentials" })
    { name := some "Ann", email := some "a@x.com", message := some "hi" }
    (by decide) (by decide)
  ⟨by decide, h.1, h.2.1 (rejectingTransport { message := "connect ETIMEDOUT" })
    (by decide)⟩

/-! ## Job application endpoint: the handler -/

/-- C5: the `/apply-job` handler answers 400 `{message: "Missing required fields"}`
exactly when one of name, email, phone, jobTitle is absent or empty; its status is
400 in no other case; the uploaded files have no part in the decision (the answer
is 400 for one value of `req.files` exactly when it is for any other); and on the
400 path the handler performs no external action, so the mail transport is never invoked. -/
theorem applyJob_missing_fields_iff (emailUser : Option String) (t : Transport)
    (unlinkFails : String → Bool) (b : ApplyBody) (files : Option ReqFiles) :
    ((applyJob emailUser t unlinkFails b files).response =
        { status := 400, body := .json "Missing required fields" } ↔
      (isMissing b.name ∨ isMissing b.email ∨ isMissing b.phone ∨ isMissing b.jobTitle)) ∧
    ((applyJob emailUser t unlinkFails b files).response.status = 400 ↔
      (isMissing b.name ∨ isMissing b.email ∨ isMissing b.phone ∨ isMissing b.jobTitle)) ∧
    (∀ files2 : Option ReqFiles,
      (applyJob emailUser t unlinkFails b files2).response.status = 400 ↔
      (applyJob emailUser t unlinkFails b files).response.status = 400) ∧
    ((applyJob emailUser t unlinkFails b files).response.status = 400 →
      (applyJob emailUser t unlinkFails b files).effects = []) := by
  have hiff : (falsy b.name || falsy b.email || falsy b.phone || falsy b.jobTitle) = true ↔
      (isMissing b.name ∨ isMissing b.email ∨ isMissing b.phone ∨ isMissing b.jobTitle) := by
    simp only [Bool.or_eq_true, falsy_iff]
    tauto
  have status_iff : ∀ fs : Option ReqFiles,
      ((applyJob emailUser t unlinkFails b fs).response.status = 400 ↔
        (falsy b.name || falsy b.email || falsy b.phone || falsy b.jobTitle) = true) := by
    intro fs
    unfold applyJob
    cases hf : (falsy b.name || falsy b.email || falsy b.phone || falsy b.jobTitle)
    · rcases hv : t.verify with e | u
      · simp
      · rcases hs : t.sendMail (applicationMail emailUser b (attachmentsOf fs)) with e | u
        · simp [hs]
        · simp [hs]
    · simp
  refine ⟨?_, ?_, ?_, ?_⟩
  · rw [← hiff]
    constructor
    · intro h
      exact (status_iff files).1 (by rw [h])
    · intro h
      simp [applyJob, h]
  · rw [← hiff]; exact status_iff files
  · intro files2
    rw [status_iff files2, status_iff files]
  · intro h
    have h2 := (status_iff files).1 h
    simp [applyJob, h2]

/-- An application with an empty phone number performs no external action; a complete application without any file is not answered with 400. -/
theorem applyJob_missing_fields_iff_witness :
    (applyJob (some "office@example.com") workingTransport (fun _ => false)
        { name := some "Ann", email := some "a@x.com", phone := some "", jobTitle := some "Welder" }
        none).effects = [] ∧
    ¬ (applyJob (some "office@example.com") workingTransport (fun _ => false)
        { name := some "Ann", email := some "a@x.com", phone := some "5", jobTitle := some "Welder" }
        (some [])).response.status = 400 :=
  ⟨(applyJob_missing_fields_iff (some "office@example.com") workingTransport (fun _ => false)
      { name := some "Ann", email := some "a@x.com", phone := some "", jobTitle := some "Welder" }
      none).2.2.2 (by decide),
   fun h => absurd ((applyJob_missing_fields_iff (some "office@example.com") workingTransport
      (fun _ => false)
      { name := some "Ann", email := some "a@x.com", phone := some "5", jobTitle := some "Welder" }
      (some [])).2.1.1 h) (by decide)⟩

/-- C6: when an `/apply-job` request passes validation and verification and sending
succeed, the handler's external actions are, in order: verify, send the message with
the assembled attachments, and one `fs.unlink` request per attachment, for exactly
the attachment paths in list order; the response is 200
`{message: "Application sent successfully"}`, whichever deletions fail. -/
theorem applyJob_success (emailUser : Option String) (t : Transport)
    (unlinkFails : String → Bool) (b : ApplyBody) (files : Option ReqFiles)
    (hb : ¬ isMissing b.name ∧ ¬ isMissing b.email ∧ ¬ isMissing b.phone ∧
      ¬ isMissing b.jobTitle)
    (hv : t.verify = .ok ())
    (hs : t.sendMail (applicationMail emailUser b (attachmentsOf files)) = .ok ()) :
    (applyJob emailUser t unlinkFails b files).response =
      { status := 200, body := .json "Application sent successfully" } ∧
    (applyJob emailUser t unlinkFails b files).effects =
      [.verify, .sendMail (applicationMail emailUser b (attachmentsOf files))] ++
        (attachmentsOf files).map (fun att => .unlink att.path) ∧
    unlinkedPaths (applyJob emailUser t unlinkFails b files).effects =
      (attachmentsOf files).map (fun att => att.path) ∧
    (∀ unlinkFails2 : String → Bool,
      (applyJob emailUser t unlinkFails2 b files).response =
        { status := 200, body := .json "Application sent successfully" }) := by
  have hf : (falsy b.name || falsy b.email || falsy b.phone || falsy b.jobTitle) = false := by
    simp only [Bool.or_eq_false_iff, falsy_eq_false_iff]
    exact ⟨⟨⟨hb.1, hb.2.1⟩, hb.2.2.1⟩, hb.2.2.2⟩
  have ho : ∀ u : String → Bool, applyJob emailUser t u b files =
      { response := { status := 200, body := .json "Application sent successfully" },
        effects := [.verify, .sendMail (applicationMail emailUser b (attachmentsOf files))] ++
          (attachmentsOf files).map (fun att => .unlink att.path),
        warnings := ((attachmentsOf files).filter (fun att => u att.path)).map
          (fun att => att.path) } := by
    intro u
    simp [applyJob, hf, hv, hs]
  refine ⟨by rw [ho], by rw [ho], ?_, fun u => by rw [ho]⟩
  rw [ho]
  have h := unlinkedPaths_map_unlink (attachmentsOf files)
  simpa [unlinkedPaths] using h

/-- C7: when an `/apply-job` request passes validation and the mail transport throws,
at verification or at sending, the response is 500
`{message: "Failed to process application"}`, the handler requests no deletion, and
every file stored in the upload directory is still there afterwards. -/
theorem applyJob_transport_failure (emailUser : Option String) (t : Transport)
    (unlinkFails : String → Bool) (b : ApplyBody) (files : Option ReqFiles)
    (hb : ¬ isMissing b.name ∧ ¬ isMissing b.email ∧ ¬ isMissing b.phone ∧
      ¬ isMissing b.jobTitle)
    (ht : throwsFor t (applicationMail emailUser b (attachmentsOf files))) :
    (applyJob emailUser t unlinkFails b files).response =
      { status := 500, body := .json "Failed to process application" } ∧
    unlinkedPaths (applyJob emailUser t unlinkFails b files).effects = [] ∧
    (∀ stored : List String,
      remainingFiles unlinkFails (applyJob emailUser t unlinkFails b files) stored = stored) := by
  have hf : (falsy b.name || falsy b.email || falsy b.phone || falsy b.jobTitle) = false := by
    simp only [Bool.or_eq_false_iff, falsy_eq_false_iff]
    exact ⟨⟨⟨hb.1, hb.2.1⟩, hb.2.2.1⟩, hb.2.2.2⟩
  have ho : applyJob emailUser t unlinkFails b files =
        { response := { status := 500, body := .json "Failed to process application" },
          effects := [.verify] } ∨
      applyJob emailUser t unlinkFails b files =
        { response := { status := 500, body := .json "Failed to process application" },
          effects := [.verify,
            .sendMail (applicationMail emailUser b (attachmentsOf files))] } := by
    unfold applyJob
    rw [hf]
    rcases hv : t.verify with e | u
    · left; simp
    · rcases hs : t.sendMail (applicationMail emailUser b (attachmentsOf files)) with e | u2
      · right; simp [hs]
      · rcases ht with h | h
        · simp [throws, hv] at h
        · simp [throws, hs] at h
  rcases ho with ho | ho <;> rw [ho] <;>
    refine ⟨rfl, rfl, fun stored => ?_⟩ <;>
    simp [remainingFiles]

/-- A complete application with one stored photo, where deleting the photo fails: still 200, and the photo is the one deletion requested. -/
theorem applyJob_success_witness :
    (¬ isMissing annBody.name ∧ ¬ isMissing annBody.email ∧ ¬ isMissing annBody.phone ∧
      ¬ isMissing annBody.jobTitle) ∧
    (applyJob (some "office@example.com") workingTransport (fun _ => true) annBody
      (some [("photo", [storeFile exampleDir photoPart])])).response =
      { status := 200, body := .json "Application sent successfully" } ∧
    unlinkedPaths (applyJob (some "office@example.com") workingTransport (fun _ => true) annBody
      (some [("photo", [storeFile exampleDir photoPart])])).effects =
      ["/srv/uploads/1730000000000-42-my_face.png"] :=
  have h := applyJob_success (some "office@example.com") workingTransport (fun _ => true)
    annBody (some [("photo", [storeFile exampleDir photoPart])]) (by decide) rfl rfl
  ⟨by decide, h.1, h.2.2.1⟩

/-- A complete application with one stored photo whose message the transport refuses: 500, and the photo stays in the upload directory. -/
theorem applyJob_transport_failure_witness :
    (¬ isMissing annBody.name ∧ ¬ isMissing annBody.email ∧ ¬ isMissing annBody.phone ∧
      ¬ isMissing annBody.jobTitle) ∧
    (applyJob (some "office@example.com") (rejectingTransport { message := "Message rejected" })
      (fun _ => false) annBody
      (some [("photo", [storeFile exampleDir photoPart])])).response =
      { status := 500, body := .json "Failed to process application" } ∧
    remainingFiles (fun _ => false)
      (applyJob (some "office@example.com") (rejectingTransport { message := "Message rejected" })
        (fun _ => false) annBody (some [("photo", [storeFile exampleDir photoPart])]))
      ["/srv/uploads/1730000000000-42-my_face.png"] =
      ["/srv/uploads/1730000000000-42-my_face.png"] :=
  have h := applyJob_transport_failure (some "office@example.com")
    (rejectingTransport { message := "Message rejected" }) (fun _ => false)
    annBody (some [("photo", [storeFile exampleDir photoPart])]) (by decide)
    (by decide)
  ⟨by decide, h.1, h.2.2 _⟩

/-! ## Job application endpoint: the upload middleware and the route -/

theorem fileFilter_ne_ok_false (name : String) : fileFilter name ≠ .ok false := by
  intro h
  by_cases hr : regexTest allowed (toLowerCase (extname name)) = true <;>
    simp [fileFilter, hr] at h

theorem fileFilter_error_status (name : String) (e : JsError)
    (h : fileFilter name = .error e) : e.status = none := by
  by_cases hr : regexTest allowed (toLowerCase (extname name)) = true
  · simp [fileFilter, hr] at h
  · simp [fileFilter, hr] at h
    rw [← h]

theorem attachmentsOf_some (files : ReqFiles) :
    attachmentsOf (some files) =
      (storedFiles files).map (fun file => { filename := file.originalname, path := file.path }) := by
  have inner : ∀ (l : List MulterFile) (acc : List Attachment),
      l.foldl (fun acc file => acc ++ [({ filename := file.originalname, path := file.path } : Attachment)]) acc =
        acc ++ l.map (fun file => { filename := file.originalname, path := file.path }) := by
    intro l
    induction l with
    | nil => intro acc; simp
    | cons x xs ih => intro acc; simp [ih]
  have outer : ∀ (fs : ReqFiles) (acc : List Attachment),
      fs.foldl (fun acc kv =>
        kv.2.foldl (fun acc file => acc ++ [({ filename := file.originalname, path := file.path } : Attachment)])
          acc) acc =
        acc ++ (storedFiles fs).map (fun file => { filename := file.originalname, path := file.path }) := by
    intro fs
    induction fs with
    | nil => intro acc; simp [storedFiles]
    | cons kv rest ih =>
      intro acc
      rw [List.foldl_cons, ih, inner]
      simp [storedFiles, List.flatMap_cons]
  simpa [attachmentsOf] using outer files []

theorem lookup_useField (fl : List (String × Nat)) (k k2 : String) :
    filesLeftOf (useField fl k) k2 =
      if k2 = k then filesLeftOf fl k2 - 1 else filesLeftOf fl k2 := by
  unfold filesLeftOf useField
  induction fl with
  | nil => simp
  | cons kv rest ih =>
    obtain ⟨a, n⟩ := kv
    rw [List.map_cons, List.lookup_cons]
    by_cases hak : a = k
    · subst hak
      simp only [beq_self_eq_true, if_true, List.lookup_cons]
      by_cases h2 : k2 = a
      · subst h2; simp
      · have h3 : (k2 == a) = false := by simpa using h2
        simp only [h3]
        exact ih
    · have h4 : (a == k) = false := by simpa using hak
      by_cases h2 : k2 = a
      · subst h2
        simp [hak, h4]
      · have h3 : (k2 == a) = false := by simpa using h2
        simpa [h4, h3, List.lookup_cons] using ih

theorem storedFiles_appendFile_new (files : ReqFiles) (f : MulterFile)
    (h : files.any (fun kv => kv.1 == f.fieldname) = false) :
    storedFiles (appendFile files f) = storedFiles files ++ [f] := by
  simp [appendFile, h, storedFiles, List.flatMap_append]

theorem intakeInv_init :
    IntakeInv { filesLeft := fields.map (fun f => (f.name, f.maxCount)), files := [] } := by
  have bound : ∀ (fl : List (String × Nat)) (k : String),
      (∀ kv ∈ fl, kv.2 ≤ 1) → filesLeftOf fl k ≤ 1 := by
    intro fl k
    unfold filesLeftOf
    induction fl with
    | nil => simp
    | cons kv rest ih =>
      intro hall
      obtain ⟨a, n⟩ := kv
      rw [List.lookup_cons]
      cases hk : (k == a)
      · exact ih (fun kv hkv => hall kv (List.mem_cons_of_mem _ hkv))
      · simpa using hall (a, n) (List.mem_cons_self _ _)
  intro k
  refine ⟨bound _ k (by decide), fun _ => by simp⟩

theorem intakeStep_ok (uploadDir : String) (st st2 : IntakeState) (p : FilePart)
    (hinv : IntakeInv st) (h : intakeStep uploadDir st p = .ok st2) :
    IntakeInv st2 ∧
      storedFiles st2.files =
        storedFiles st.files ++ (uploadedParts [p]).map (storeFile uploadDir) := by
  unfold intakeStep at h
  by_cases h1 : p.originalname = ""
  · simp only [h1, if_true] at h
    cases h
    exact ⟨hinv, by simp [uploadedParts, h1]⟩
  · by_cases h2 : filesLeftOf st.filesLeft p.fieldname = 0
    · simp [h1, h2] at h
    · simp only [h1, h2, if_false] at h
      rcases hff : fileFilter p.originalname with e | ok
      · simp [hff] at h
      · cases ok
        · exact absurd hff (fileFilter_ne_ok_false _)
        · simp only [hff] at h
          by_cases h3 : p.size > fileSize
          · simp [h3] at h
          · simp only [h3, if_false] at h
            cases h
            have hone : filesLeftOf st.filesLeft p.fieldname = 1 := by
              have := (hinv p.fieldname).1
              omega
            have hnew := (hinv p.fieldname).2 hone
            have hname : (storeFile uploadDir p).fieldname = p.fieldname := rfl
            refine ⟨fun k => ?_, ?_⟩
            · simp only [lookup_useField]
              by_cases hk : k = p.fieldname
              · subst hk
                simp [hone]
              · have hk2 : (p.fieldname == k) = false := by
                  simpa using fun h => hk h.symm
                simp only [hk, if_false]
                refine ⟨(hinv k).1, fun hl => ?_⟩
                have hold := (hinv k).2 hl
                simp [appendFile, hname, hnew, List.any_append, hold, hk2]
            · rw [storedFiles_appendFile_new _ _ (by rw [hname]; exact hnew)]
              simp [uploadedParts, h1]

theorem intake_ok (uploadDir : String) (parts : List FilePart) :
    ∀ (st st2 : IntakeState), IntakeInv st →
      parts.foldlM (intakeStep uploadDir) st = .ok st2 →
      storedFiles st2.files =
        storedFiles st.files ++ (uploadedParts parts).map (storeFile uploadDir) := by
  induction parts with
  | nil =>
    intro st st2 _ h
    simp only [List.foldlM_nil, pure, Except.pure] at h
    cases h
    simp [uploadedParts]
  | cons p ps ih =>
    intro st st2 hinv h
    rw [List.foldlM_cons] at h
    rcases hstep : intakeStep uploadDir st p with e | st1
    · simp [hstep, bind, Except.bind] at h
    · simp only [hstep, bind, Except.bind] at h
      obtain ⟨hinv1, hfiles1⟩ := intakeStep_ok uploadDir st st1 p hinv hstep
      rw [ih st1 st2 hinv1 h, hfiles1]
      simp [uploadedParts, List.filter_cons]
      split <;> simp

theorem uploadFields_ok (uploadDir : String) (parts : List FilePart) (files : ReqFiles)
    (h : uploadFields uploadDir parts = .ok files) :
    storedFiles files = (uploadedParts parts).map (storeFile uploadDir) := by
  unfold uploadFields at h
  rcases hfold : parts.foldlM (intakeStep uploadDir)
      { filesLeft := fields.map (fun f => (f.name, f.maxCount)), files := [] } with e | st
  · simp [hfold, Except.map] at h
  · simp only [hfold, Except.map] at h
    cases h
    simpa [storedFiles] using intake_ok uploadDir parts _ st intakeInv_init hfold

theorem intakeStep_error_status (uploadDir : String) (st : IntakeState) (p : FilePart)
    (e : JsError) (h : intakeStep uploadDir st p = .error e) : e.status = none := by
  unfold intakeStep at h
  by_cases h1 : p.originalname = ""
  · simp [h1] at h
  · by_cases h2 : filesLeftOf st.filesLeft p.fieldname = 0
    · simp only [h1, h2, if_true, if_false] at h
      cases h; rfl
    · simp only [h1, h2, if_false] at h
      rcases hff : fileFilter p.originalname with e2 | ok
      · simp only [hff] at h
        cases h
        exact fileFilter_error_status _ _ hff
      · cases ok
        · simp [hff] at h
        · simp only [hff] at h
          by_cases h3 : p.size > fileSize
          · simp only [h3, if_true] at h
            cases h; rfl
          · simp [h3] at h

theorem intakeStep_refused (uploadDir : String) (st : IntakeState) (p : FilePart)
    (hp : refusedPart p) : ∃ e, intakeStep uploadDir st p = .error e := by
  obtain ⟨h1, hbad⟩ := hp
  unfold intakeStep
  by_cases h2 : filesLeftOf st.filesLeft p.fieldname = 0
  · simp [h1, h2]
  · simp only [h1, h2, if_false]
    rcases hff : fileFilter p.originalname with e2 | ok
    · exact ⟨e2, rfl⟩
    · cases ok
      · exact absurd hff (fileFilter_ne_ok_false _)
      · rcases hbad with he | hsize
        · simp [throws, hff] at he
        · simp [hsize]

theorem intake_refused (uploadDir : String) (parts : List FilePart) :
    ∀ st : IntakeState, (∃ p ∈ parts, refusedPart p) →
      ∃ e, parts.foldlM (intakeStep uploadDir) st = .error e ∧ e.status = none := by
  induction parts with
  | nil => intro st h; simp at h
  | cons p ps ih =>
    intro st hex
    rw [List.foldlM_cons]
    rcases hstep : intakeStep uploadDir st p with e | st1
    · exact ⟨e, by simp [bind, Except.bind], intakeStep_error_status _ _ _ _ hstep⟩
    · simp only [bind, Except.bind]
      obtain ⟨q, hq, hbad⟩ := hex
      rcases List.mem_cons.1 hq with rfl | hq2
      · obtain ⟨e, he⟩ := intakeStep_refused uploadDir st q hbad
        rw [hstep] at he; cases he
      · exact ih st1 ⟨q, hq2, hbad⟩

/-- C2, as stated, fails: when the `photo` part arrives before the `passport_front`
part, `req.files` has the key `photo` first, and the handler's attachment list is
photo, passport — not the registered order passport, photo. -/
theorem attachments_not_in_registered_order :
    uploadFields exampleDir [photoPart, passportPart] = .ok arrivedFiles ∧
    attachmentsOf (some arrivedFiles) =
      [{ filename := "my face.png", path := "/srv/uploads/1730000000000-42-my_face.png" },
       { filename := "passport.pdf", path := "/srv/uploads/1730000000001-977-passport.pdf" }] ∧
    attachmentsInRegisteredOrder arrivedFiles =
      [{ filename := "passport.pdf", path := "/srv/uploads/1730000000001-977-passport.pdf" },
       { filename := "my face.png", path := "/srv/uploads/1730000000000-42-my_face.png" }] ∧
    attachmentsOf (some arrivedFiles) ≠ attachmentsInRegisteredOrder arrivedFiles :=
  ⟨by rfl, by decide, by decide, by decide⟩

/-- C2, amended: when the upload middleware accepts a request, the handler's attachment
list has exactly one entry per file part that carries a file, with the part's original
name as `filename` and the stored path as `path`, and the entries are in the order in
which the parts arrived. -/
theorem attachments_in_arrival_order (uploadDir : String) (parts : List FilePart)
    (files : ReqFiles) (h : uploadFields uploadDir parts = .ok files) :
    attachmentsOf (some files) =
      (uploadedParts parts).map (fun p =>
        { filename := p.originalname,
          path := uploadDir ++ "/" ++ storageFilename p.now p.rnd p.originalname }) ∧
    (attachmentsOf (some files)).length = (uploadedParts parts).length := by
  have hmain : attachmentsOf (some files) =
      (uploadedParts parts).map (fun p =>
        ({ filename := p.originalname,
           path := uploadDir ++ "/" ++ storageFilename p.now p.rnd p.originalname } : Attachment)) := by
    rw [attachmentsOf_some, uploadFields_ok uploadDir parts files h, List.map_map]
    rfl
  exact ⟨hmain, by rw [hmain, List.length_map]⟩

/-- A photo part followed by a passport part: the attachments are photo, passport. -/
theorem attachments_in_arrival_order_witness :
    uploadFields exampleDir [photoPart, passportPart] = .ok arrivedFiles ∧
    attachmentsOf (some arrivedFiles) =
      (uploadedParts [photoPart, passportPart]).map (fun p =>
        { filename := p.originalname,
          path := exampleDir ++ "/" ++ storageFilename p.now p.rnd p.originalname }) :=
  ⟨by rfl, (attachments_in_arrival_order exampleDir [photoPart, passportPart] arrivedFiles
    (by rfl)).1⟩

/-- C4: a refused upload is not answered the way the handler answers its other
failures (400 or 500 with a JSON `message`, server.js 104 and 154). A request with an
`.exe` upload, and a request with a PDF of 6 MiB plus one byte, are refused by the
upload middleware; no error handler is registered, so the caller gets status 500
with the framework's HTML error page, and the message built by `fileFilter` never
reaches the caller as JSON. -/
theorem refused_upload_not_400 :
    fileFilter exePart.originalname =
      .error { message := "Only .pdf, .jpg, .jpeg, .png allowed" } ∧
    (applyJobRoute exampleDir (some "office@example.com") workingTransport (fun _ => false)
      { body := annBody, parts := [photoPart, exePart] }).response =
      { status := 500, body := .htmlErrorPage } ∧
    oversizedPart.size > fileSize ∧
    (applyJobRoute exampleDir (some "office@example.com") workingTransport (fun _ => false)
      { body := annBody, parts := [oversizedPart] }).response =
      { status := 500, body := .htmlErrorPage } :=
  ⟨by rfl, by decide, by decide, by decide⟩

/-- Every refused upload takes the path of the two examples above: when the upload
middleware refuses a file of an `/apply-job` request (its name fails `fileFilter`, or
it is larger than 6*1024*1024 bytes), the handler does not run and the default error
handler answers with status 500 and an HTML error page. -/
theorem applyJobRoute_refused_upload (uploadDir : String) (emailUser : Option String)
    (t : Transport) (unlinkFails : String → Bool) (req : ApplyRequest)
    (h : ∃ p ∈ req.parts, refusedPart p) :
    applyJobRoute uploadDir emailUser t unlinkFails req =
      { response := { status := 500, body := .htmlErrorPage }, effects := [], warnings := [] } := by
  unfold applyJobRoute uploadFields
  obtain ⟨e, he, hstatus⟩ := intake_refused uploadDir req.parts
    { filesLeft := fields.map (fun f => (f.name, f.maxCount)), files := [] } h
  simp [he, Except.map, defaultErrorHandler, hstatus]

/-- A request with a photo and an executable: the handler does not run and the answer is the default error page. -/
theorem applyJobRoute_refused_upload_witness :
    (∃ p ∈ [photoPart, exePart], refusedPart p) ∧
    applyJobRoute exampleDir (some "office@example.com") workingTransport (fun _ => false)
      { body := annBody, parts := [photoPart, exePart] } =
      { response := { status := 500, body := .htmlErrorPage }, effects := [], warnings := [] } :=
  have hex : ∃ p ∈ [photoPart, exePart], refusedPart p :=
    ⟨exePart, by simp, by decide⟩
  ⟨hex, applyJobRoute_refused_upload exampleDir (some "office@example.com") workingTransport
    (fun _ => false) { body := annBody, parts := [photoPart, exePart] } hex⟩

/-! ## Stored file names -/

theorem digitChar_ne_dash (d : Nat) (h : d < 10) : Nat.digitChar d ≠ '-' := by
  interval_cases d <;> decide

theorem digitChar_value (d : Nat) (h : d < 10) : (Nat.digitChar d).toNat - 48 = d := by
  interval_cases d <;> rfl

theorem toDigitsCore_spec : ∀ (fuel n : Nat) (ds : List Char), n < fuel →
    ∃ xs : List Char, Nat.toDigitsCore 10 fuel n ds = xs ++ ds ∧
      (∀ c ∈ xs, c ≠ '-') ∧ digitsValue xs = n := by
  intro fuel
  induction fuel with
  | zero => intro n ds h; omega
  | succ fuel ih =>
    intro n ds h
    have hlt : n % 10 < 10 := Nat.mod_lt _ (by decide)
    by_cases h0 : n / 10 = 0
    · refine ⟨[Nat.digitChar (n % 10)], by simp [Nat.toDigitsCore, h0], ?_, ?_⟩
      · intro c hc
        rw [List.mem_singleton] at hc
        rw [hc]; exact digitChar_ne_dash _ hlt
      · have hn : n % 10 = n := by omega
        have hv := digitChar_value _ hlt
        rw [hn] at hv ⊢
        simpa [digitsValue] using hv
    · obtain ⟨xs, hxs, hdash, hval⟩ := ih (n / 10) (Nat.digitChar (n % 10) :: ds) (by omega)
      refine ⟨xs ++ [Nat.digitChar (n % 10)], by simp [Nat.toDigitsCore, h0, hxs], ?_, ?_⟩
      · intro c hc
        rcases List.mem_append.1 hc with hc | hc
        · exact hdash c hc
        · rw [List.mem_singleton] at hc
          rw [hc]; exact digitChar_ne_dash _ hlt
      · unfold digitsValue at hval ⊢
        rw [List.foldl_append, hval]
        simp only [List.foldl_cons, List.foldl_nil, digitChar_value _ hlt]
        omega

theorem repr_no_dash (n : Nat) : ∀ c ∈ (Nat.repr n).data, c ≠ '-' := by
  obtain ⟨xs, hxs, hdash, _⟩ := toDigitsCore_spec (n + 1) n [] (Nat.lt_succ_self n)
  simp only [Nat.repr, Nat.toDigits, List.asString, hxs, List.append_nil]
  exact hdash

theorem repr_value (n : Nat) : digitsValue (Nat.repr n).data = n := by
  obtain ⟨xs, hxs, _, hval⟩ := toDigitsCore_spec (n + 1) n [] (Nat.lt_succ_self n)
  simp only [Nat.repr, Nat.toDigits, List.asString, hxs, List.append_nil]
  exact hval

theorem split_at_dash : ∀ (xs ys r1 r2 : List Char),
    (∀ c ∈ xs, c ≠ '-') → (∀ c ∈ ys, c ≠ '-') →
    xs ++ '-' :: r1 = ys ++ '-' :: r2 → xs = ys ∧ r1 = r2 := by
  intro xs
  induction xs with
  | nil =>
    intro ys r1 r2 _ hy h
    cases ys with
    | nil => simpa using h
    | cons y ys =>
      simp only [List.nil_append, List.cons_append, List.cons.injEq] at h
      exact absurd h.1.symm (hy y (List.mem_cons_self _ _))
  | cons x xs ih =>
    intro ys r1 r2 hx hy h
    cases ys with
    | nil =>
      simp only [List.nil_append, List.cons_append, List.cons.injEq] at h
      exact absurd h.1 (hx x (List.mem_cons_self _ _))
    | cons y ys =>
      simp only [List.cons_append, List.cons.injEq] at h
      obtain ⟨h1, h2⟩ := ih ys r1 r2 (fun c hc => hx c (List.mem_cons_of_mem _ hc))
        (fun c hc => hy c (List.mem_cons_of_mem _ hc)) h.2
      exact ⟨by rw [h.1, h1], h2⟩

theorem storageFilename_data (now rnd : Nat) (name : String) :
    (storageFilename now rnd name).data =
      (Nat.repr now).data ++ '-' :: ((Nat.repr rnd).data ++ '-' :: (safeName name).data) := by
  simp [storageFilename, String.data_append, List.append_assoc]

/-- C3, as stated, fails: two uploads of `cv.pdf` handled in the same millisecond whose
random draws round to the same integer get the same stored name. -/
theorem storageFilename_collision :
    ¬ ∀ (now1 rnd1 now2 rnd2 : Nat) (name : String),
      rnd1 ≤ 10 ^ 9 → rnd2 ≤ 10 ^ 9 →
      storageFilename now1 rnd1 name ≠ storageFilename now2 rnd2 name :=
  fun h => h 1730000000000 123456789 1730000000000 123456789 "cv.pdf"
    (by decide) (by decide) rfl

/-- C3, amended: two uploads with identical original names get distinct stored names
exactly when they differ in the millisecond clock reading or in the random integer;
the stored name is the clock reading, a dash, the random integer, a dash, and the
original name with every run of white space replaced by one underscore. -/
theorem storageFilename_distinct_iff (now1 rnd1 now2 rnd2 : Nat) (name : String) :
    (storageFilename now1 rnd1 name ≠ storageFilename now2 rnd2 name ↔
      (now1 ≠ now2 ∨ rnd1 ≠ rnd2)) ∧
    storageFilename now1 rnd1 name =
      Nat.repr now1 ++ "-" ++ Nat.repr rnd1 ++ "-" ++ safeName name := by
  refine ⟨?_, by simp [storageFilename, String.append_assoc]⟩
  constructor
  · intro hne
    by_contra hcon
    have h1 : now1 = now2 := by
      by_contra h; exact hcon (Or.inl h)
    have h2 : rnd1 = rnd2 := by
      by_contra h; exact hcon (Or.inr h)
    exact hne (by rw [h1, h2])
  · intro hdiff heq
    have hdata := congrArg String.data heq
    rw [storageFilename_data, storageFilename_data] at hdata
    obtain ⟨ha, hrest⟩ := split_at_dash _ _ _ _ (repr_no_dash now1) (repr_no_dash now2) hdata
    obtain ⟨hb, _⟩ := split_at_dash _ _ _ _ (repr_no_dash rnd1) (repr_no_dash rnd2) hrest
    have hn : now1 = now2 := by
      rw [← repr_value now1, ← repr_value now2, ha]
    have hr : rnd1 = rnd2 := by
      rw [← repr_value rnd1, ← repr_value rnd2, hb]
    rcases hdiff with h | h
    · exact h hn
    · exact h hr

/-! ## The extension filter -/

theorem fileFilter_accepts_named (name : String)
    (h : toLowerCase (extname name) ∈ namedExtensions) : fileFilter name = .ok true := by
  have hall : ∀ ext ∈ namedExtensions, regexTest allowed ext = true := by decide
  simp [fileFilter, hall _ h]

/-- C1: `fileFilter` does not reject every extension outside `.jpg`, `.jpeg`, `.png`,
`.pdf`. The file name `invoice.pdfx` has the lower-cased extension `.pdfx`, which is
none of the four, yet the filter accepts it, because the pattern `/jpeg|jpg|png|pdf/`
is searched for anywhere in the extension. The name `setup.exe` is rejected with the
message that names the four extensions. -/
theorem fileFilter_accepts_pdfx :
    toLowerCase (extname "invoice.pdfx") = ".pdfx" ∧
    ".pdfx" ∉ namedExtensions ∧
    fileFilter "invoice.pdfx" = .ok true ∧
    fileFilter "setup.exe" = .error { message := "Only .pdf, .jpg, .jpeg, .png allowed" } :=
  ⟨by decide, by decide, by rfl, by rfl⟩

end Server
